import Mathlib

/-!
Verification of the SBMU study-materials bot (src/bot.py) against its
natural-language specification.

The development shallowly embeds the parts of `bot.py` that the claims are
about:

* the anonymous-chat matchmaking engine: the in-memory `waiting_queue`,
  `active_chat`, `active_session` globals together with the `chat_sessions`
  table, and the three operations `chat_join` / `chat_cancel` (branches of
  `buttons()`, lines 924-979) and `end_chat` (lines 530-569);
* the moderation pipeline `approve_upload` / `reject_upload`
  (lines 458-524) over the `pending_uploads`, `materials` and `user_stats`
  tables;
* the private-chat freeform-message dispatcher `on_message`
  (lines 1331-1519) and the feature-entry branches of the button dispatcher
  `buttons()` (lines 726-922).

User ids are Telegram BIGINTs, modelled as `Int`.  Python dictionaries keyed
by user id are modelled as functions `Int → Option _` (respectively
`Int → Bool` for the boolean mode flags); SQL tables are modelled as lists of
row structures, with BIGSERIAL keys modelled by an explicit counter.
-/

namespace SbmuBot

abbrev UserId := Int

/-- The single admin id from `ADMIN_IDS = {6474515118}`. -/
def adminId : UserId := 6474515118

/-- Membership in `ADMIN_IDS` (`is_admin`, line 312). -/
def isAdmin (uid : UserId) : Bool := uid == adminId

/-- Pointwise update of a dictionary modelled as a function; `upd f k v`
is `f` with key `k` bound to `v` (`v = none` models `dict.pop(k, None)`). -/
def upd {α : Type} (f : UserId → Option α) (k : UserId) (v : Option α) :
    UserId → Option α :=
  fun x => if x = k then v else f x

/-- A row of the `chat_sessions` table (timestamps omitted).
`statusActive = true` is status `'active'`, `false` is `'ended'`. -/
structure Session where
  sessionId : Nat
  userA : UserId
  userB : UserId
  statusActive : Bool
deriving Repr, DecidableEq

/-- The matchmaking state: the in-memory globals `waiting_queue`,
`active_chat`, `active_session` (lines 255-257) and the `chat_sessions`
table; `nextSid` models the BIGSERIAL `session_id` (first value 1). -/
structure ChatState where
  waitingQueue : List UserId
  activeChat : UserId → Option UserId
  activeSession : UserId → Option Nat
  sessions : List Session
  nextSid : Nat

/-- The empty starting state: no one waiting, no one paired. -/
def initChat : ChatState :=
  { waitingQueue := []
    activeChat := fun _ => none
    activeSession := fun _ => none
    sessions := []
    nextSid := 1 }

/-- Outcome of the `chat_join` handler, distinguishing its four exits. -/
inductive JoinResult where
  | alreadyInChat
  | alreadyWaiting
  | waiting
  | paired (partner : UserId) (sid : Nat)
deriving Repr, DecidableEq

/-- The scan loop of `chat_join` (lines 934-939): repeatedly pop the head of
the waiting queue until an entry distinct from the joiner and not already
paired is found (that entry and the remaining queue are returned) or the
queue is exhausted.  Ineligible entries are popped and dropped. -/
def scanQueue (uid : UserId) (ac : UserId → Option UserId) :
    List UserId → Option UserId × List UserId
  | [] => (none, [])
  | c :: rest =>
      if c ≠ uid ∧ ac c = none then (some c, rest)
      else scanQueue uid ac rest

/-- The `chat_join` branch of `buttons()` (lines 924-969): no-op if already
paired; "already waiting" if queued; otherwise scan the queue for the first
eligible candidate and either pair with it (creating a session and setting
both directions of `active_chat` / `active_session`) or append to the tail. -/
def chatJoin (s : ChatState) (uid : UserId) : ChatState × JoinResult :=
  if (s.activeChat uid).isSome then (s, .alreadyInChat)
  else if uid ∈ s.waitingQueue then (s, .alreadyWaiting)
  else
    match scanQueue uid s.activeChat s.waitingQueue with
    | (none, rest) => ({ s with waitingQueue := rest ++ [uid] }, .waiting)
    | (some p, rest) =>
        let sid := s.nextSid
        ({ s with
            waitingQueue := rest
            activeChat := upd (upd s.activeChat uid (some p)) p (some uid)
            activeSession := upd (upd s.activeSession uid (some sid)) p (some sid)
            sessions := s.sessions ++ [⟨sid, uid, p, true⟩]
            nextSid := sid + 1 },
         .paired p sid)

/-- The `chat_cancel` branch of `buttons()` (lines 971-975): remove the user
from the waiting queue if present (Python `list.remove`: first occurrence). -/
def chatCancel (s : ChatState) (uid : UserId) : ChatState :=
  if uid ∈ s.waitingQueue then
    { s with waitingQueue := s.waitingQueue.erase uid }
  else s

/-- Mark the session row with the given id ended
(`UPDATE chat_sessions SET status='ended' ... WHERE session_id=%s`). -/
def endSession (rows : List Session) (sid : Nat) : List Session :=
  rows.map (fun r => if r.sessionId = sid then { r with statusActive := false } else r)

/-- First stage of `end_chat` (lines 531-532): remove the user from the
waiting queue if present. -/
def endChatDrop (s : ChatState) (uid : UserId) : ChatState :=
  if uid ∈ s.waitingQueue then
    { s with waitingQueue := s.waitingQueue.erase uid }
  else s

/-- The map clearing of `end_chat` (lines 540-542):
`active_chat.pop(u, None)` and `active_session.pop(u, None)` for both the
leaver and the partner. -/
def clearPair (s1 : ChatState) (uid partner : UserId) : ChatState :=
  { s1 with
      activeChat := upd (upd s1.activeChat uid none) partner none
      activeSession := upd (upd s1.activeSession uid none) partner none }

/-- Second stage of `end_chat` (lines 537-545), reached when the user is
paired: read the session id, clear both directions of `active_chat` and
`active_session`, then mark the session ended (guarded by Python
truthiness of the session id, `if sid:`). -/
def endChatPaired (s1 : ChatState) (uid partner : UserId) : ChatState :=
  match s1.activeSession uid with
  | none => clearPair s1 uid partner
  | some sid =>
      if sid = 0 then clearPair s1 uid partner
      else { clearPair s1 uid partner with sessions := endSession s1.sessions sid }

/-- The `end_chat` handler (lines 530-569): drop from the waiting queue,
then, if the user is paired, dissolve the pairing and end the session. -/
def endChat (s : ChatState) (uid : UserId) : ChatState :=
  match (endChatDrop s uid).activeChat uid with
  | none => endChatDrop s uid
  | some partner => endChatPaired (endChatDrop s uid) uid partner

/-- One matchmaking operation: join, cancel-waiting, or end-chat. -/
inductive ChatOp where
  | join (uid : UserId)
  | cancel (uid : UserId)
  | endc (uid : UserId)

/-- Apply one matchmaking operation to the state. -/
def applyOp (s : ChatState) : ChatOp → ChatState
  | .join u => (chatJoin s u).1
  | .cancel u => chatCancel s u
  | .endc u => endChat s u

/-- Run a sequence of matchmaking operations from a state. -/
def runOps (s : ChatState) : List ChatOp → ChatState
  | [] => s
  | op :: ops => runOps (applyOp s op) ops

/-! ### Moderation pipeline (`approve_upload` / `reject_upload`) -/

/-- The archive channel id constant `ARCHIVE_CHANNEL_ID` (line 22). -/
def archiveChannelId : Int := -1003387982513

/-- Submission status column of `pending_uploads` (and `user_broadcasts`). -/
inductive SubStatus where
  | pending
  | approved
  | rejected
deriving Repr, DecidableEq

/-- A row of the `pending_uploads` table (timestamp omitted). -/
structure PendingUpload where
  uploadId : Nat
  submitterId : UserId
  faculty : String
  major : String
  entryYear : String
  courseName : String
  professorName : Option String
  userChatId : Int
  userMessageId : Int
  status : SubStatus
deriving Repr, DecidableEq

/-- A row of the `materials` table (timestamp omitted). -/
structure Material where
  materialId : Nat
  faculty : String
  major : String
  entryYear : String
  courseName : String
  professorName : Option String
  archiveChannelId : Int
  archiveMessageId : Int
  addedBy : UserId
deriving Repr, DecidableEq

/-- The persistent state touched by the moderation pipeline: the
`pending_uploads` and `materials` tables, the `approved_uploads` column of
`user_stats` (a partial map, `none` = no row), and two counters modelling
the BIGSERIAL keys plus the message id the archive channel will assign to
the next copied message. -/
structure ModState where
  pendingUploads : List PendingUpload
  nextUploadId : Nat
  materials : List Material
  nextMaterialId : Nat
  userStats : UserId → Option Nat
  nextArchiveMsgId : Int

/-- The guarded fetch of `approve_upload` / `reject_upload` (lines 459, 511):
`SELECT * FROM pending_uploads WHERE upload_id=%s AND status='pending'`. -/
def fetchPendingRow (db : ModState) (uploadId : Nat) : Option PendingUpload :=
  db.pendingUploads.find?
    (fun r => r.uploadId == uploadId && r.status == SubStatus.pending)

/-- The status write of `approve_upload` (line 492):
`UPDATE pending_uploads SET status='approved' WHERE upload_id=%s`.
The source filters on `upload_id` only; there is no `status` condition. -/
def setApproved (rows : List PendingUpload) (uploadId : Nat) : List PendingUpload :=
  rows.map (fun r => if r.uploadId = uploadId then { r with status := .approved } else r)

/-- Modelled from the spec: the status write as §4.4 of the spec describes
it, "again gated on `status = pending` to close the race window" — a
conditional update filtered on both key and current status.  Used only to
compare against `setApproved`, the write the source actually performs. -/
def setApprovedGatedSpec (rows : List PendingUpload) (uploadId : Nat) :
    List PendingUpload :=
  rows.map (fun r =>
    if r.uploadId = uploadId ∧ r.status = .pending then { r with status := .approved }
    else r)

/-- The `user_stats` upsert of `approve_upload` (lines 493-497):
`INSERT ... VALUES (%s, 1) ON CONFLICT (user_id) DO UPDATE SET
approved_uploads = user_stats.approved_uploads + 1`. -/
def bumpStats (f : UserId → Option Nat) (u : UserId) : UserId → Option Nat :=
  fun x => if x = u then some ((f u).getD 0 + 1) else f x

/-- Reply sent to the acting admin by the moderation handlers. -/
inductive ModReply where
  | alreadyResolved
  | approvedOk
  | rejectedOk
deriving Repr, DecidableEq

/-- The side-effect phase of `approve_upload` (lines 478-497), everything
after the guarded fetch returned `row`: copy the submitted file to the
archive channel, insert the `materials` row from the submission snapshot
plus the archived copy's reference, write the status, and bump the
submitter's approved-uploads counter. -/
def approveEffects (db : ModState) (row : PendingUpload) (uploadId : Nat) : ModState :=
  let msgId := db.nextArchiveMsgId
  { db with
      materials := db.materials ++
        [{ materialId := db.nextMaterialId
           faculty := row.faculty
           major := row.major
           entryYear := row.entryYear
           courseName := row.courseName
           professorName := row.professorName
           archiveChannelId := archiveChannelId
           archiveMessageId := msgId
           addedBy := row.submitterId }]
      nextMaterialId := db.nextMaterialId + 1
      pendingUploads := setApproved db.pendingUploads uploadId
      userStats := bumpStats db.userStats row.submitterId
      nextArchiveMsgId := msgId + 1 }

/-- The `approve_upload` handler (lines 458-507): guarded fetch, then the
side-effect phase; "already resolved" and no action when the fetch finds
no pending row. -/
def approveUpload (db : ModState) (uploadId : Nat) : ModState × ModReply :=
  match fetchPendingRow db uploadId with
  | none => (db, .alreadyResolved)
  | some row => (approveEffects db row uploadId, .approvedOk)

/-- The `reject_upload` handler (lines 510-524): same guarded fetch; on
success only the status is written (`UPDATE ... SET status='rejected'
WHERE upload_id=%s`), no catalog or counter mutation. -/
def rejectUpload (db : ModState) (uploadId : Nat) : ModState × ModReply :=
  match fetchPendingRow db uploadId with
  | none => (db, .alreadyResolved)
  | some _ =>
      ({ db with
          pendingUploads := db.pendingUploads.map
            (fun r => if r.uploadId = uploadId then { r with status := .rejected } else r) },
       .rejectedOk)

/-- Two racing `approve_upload` invocations on the same id, interleaved at
the `await context.bot.copy_message` suspension point (line 478): both
coroutines execute the guarded fetch (line 459) against the same database
state before either resumes, then each performs the side-effect phase in
turn.  This interleaving is possible because the fetch and the status write
are separate statements and the write is not conditioned on the status. -/
def approveUploadRaced (db : ModState) (uploadId : Nat) : ModState :=
  match fetchPendingRow db uploadId with
  | none => db
  | some row => approveEffects (approveEffects db row uploadId) row uploadId

/-! ### The router boundary around chat_join (exception model)

Every outbound send in `chat_join` (`cq.message.reply_text`,
`context.bot.send_message`, lines 928-968) happens after the branch's state
mutations and can raise; the surrounding `try`/`except` of `buttons()`
(lines 637-1248) catches anything raised and drops the event without
restoring state.  `chatJoinSend` instruments `chat_join` with an explicit
exception: `sendOk = false` makes the first outbound send of the taken
branch raise, and the raised value carries the state as mutated so far. -/

/-- The body of the `chat_join` branch with its outbound sends made
explicit; `.error t` models an exception escaping the handler while the
mutable state is `t`. -/
def chatJoinSend (s : ChatState) (uid : UserId) (sendOk : Bool) :
    Except ChatState ChatState :=
  if (s.activeChat uid).isSome then .ok s
  else if uid ∈ s.waitingQueue then
    if sendOk then .ok s else .error s
  else
    match scanQueue uid s.activeChat s.waitingQueue with
    | (none, rest) =>
        let s1 := { s with waitingQueue := rest ++ [uid] }
        if sendOk then .ok s1 else .error s1
    | (some p, rest) =>
        let sid := s.nextSid
        let s1 :=
          { s with
              waitingQueue := rest
              activeChat := upd (upd s.activeChat uid (some p)) p (some uid)
              activeSession := upd (upd s.activeSession uid (some sid)) p (some sid)
              sessions := s.sessions ++ [⟨sid, uid, p, true⟩]
              nextSid := sid + 1 }
        if sendOk then .ok s1 else .error s1

/-- Whether an exception escaped the handler body. -/
def isRaised {α β : Type} : Except α β → Bool
  | .error _ => true
  | .ok _ => false

/-- The `try`/`except` boundary of `buttons()` around the `chat_join`
branch: any exception is caught and logged, the event is dropped, and the
in-memory state stays whatever the handler left it as (there is no
rollback). -/
def routerChatJoin (s : ChatState) (uid : UserId) (sendOk : Bool) : ChatState :=
  match chatJoinSend s uid sendOk with
  | .ok t => t
  | .error t => t

/-! ### The private-chat message dispatcher and button entry points -/

/-- A row of the `users` table (timestamps omitted).  Nullable TEXT columns
are `Option String`. -/
structure UserRow where
  username : Option String
  fullName : String
  faculty : Option String
  major : Option String
  entryYear : Option String
deriving Repr, DecidableEq

/-- A row of the `chat_messages` table (timestamp omitted); `sessionId` is
nullable because the source inserts `active_session.get(uid)`, which can be
`None`. -/
structure ChatMsgRow where
  sessionId : Option Nat
  senderId : UserId
  msgText : String
deriving Repr, DecidableEq

/-- A row of the `user_broadcasts` table (timestamp omitted). -/
structure BroadcastRow where
  bid : Nat
  userId : UserId
  faculty : Option String
  major : Option String
  entryYear : Option String
  messageChatId : Int
  messageId : Int
  status : SubStatus
deriving Repr, DecidableEq

/-- The upload-wizard conversation states stored in `user_state`
(`"await_pdf"`, `"await_course"`, `"await_prof"`). -/
inductive WizState where
  | awaitPdf
  | awaitCourse
  | awaitProf
deriving Repr, DecidableEq

/-- The scratch record `tmp[uid]` built by the upload wizard; `courseName`
is absent until the `await_course` step has run. -/
structure TmpRec where
  userChatId : Int
  userMessageId : Int
  faculty : Option String
  major : Option String
  entryYear : Option String
  courseName : Option String
deriving Repr, DecidableEq

/-- An inbound private-chat message as the dispatcher sees it.  `text` is
`none` for non-text content (photo, sticker, document, ...). -/
structure Msg where
  text : Option String
  isDocument : Bool
  docFileName : Option String
  chatId : Int
  messageId : Int
  fromUsername : Option String
  fromFullName : String
deriving Repr, DecidableEq

/-- The complete mutable state seen by the dispatchers: the in-memory
per-user dictionaries (lines 251-263), the matchmaking state, and the
persistent tables. -/
structure BotState where
  users : UserId → Option UserRow
  userState : UserId → Option WizState
  tmp : UserId → Option TmpRec
  searchState : UserId → Bool
  adminBroadcastMode : UserId → Bool
  adminDeleteMode : UserId → Bool
  userBroadcastMode : UserId → Bool
  chatUsed : UserId → Bool
  chat : ChatState
  chatMessages : List ChatMsgRow
  mod : ModState
  userBroadcasts : List BroadcastRow
  nextBroadcastId : Nat

/-- Python `str.strip()` on a character list: drop whitespace from both
ends (structurally recursive so that proofs can evaluate it). -/
def stripChars (l : List Char) : List Char :=
  ((l.dropWhile Char.isWhitespace).reverse.dropWhile Char.isWhitespace).reverse

/-- Python `str.strip()` (`msg.text.strip()` in the source). -/
def pyStrip (s : String) : String := ⟨stripChars s.data⟩

/-- Python `str.isdigit()` for ASCII input: non-empty and all digits. -/
def pyIsDigits (s : String) : Bool := !s.data.isEmpty && s.data.all Char.isDigit

/-- Decimal value of a digit string (Python `int(...)` on `isdigit` input). -/
def digitsToNat (l : List Char) : Nat :=
  l.foldl (fun n c => n * 10 + (c.toNat - 48)) 0

/-- Python `str.lower()` (ASCII). -/
def pyLower (s : String) : String := ⟨s.data.map Char.toLower⟩

/-- Python `str.endswith(post)`. -/
def pyEndsWith (s post : String) : Bool := post.data.isSuffixOf s.data

/-- The `user_stats` insert of `ensure_stats` (line 316):
`INSERT ... VALUES (%s) ON CONFLICT (user_id) DO NOTHING` (the
`approved_uploads` column defaults to 0). -/
def ensureStats (f : UserId → Option Nat) (uid : UserId) : UserId → Option Nat :=
  fun x => if x = uid then some ((f uid).getD 0) else f x

/-- Python truthiness of a nullable TEXT value: `None` and `''` are falsy. -/
def truthy : Option String → Bool
  | none => false
  | some s => !(s == "")

/-- The `user_configured` check (lines 343-345): the classification triple
`(faculty, major, entry_year)` of the user's row is fully set. -/
def userConfigured (s : BotState) (uid : UserId) : Bool :=
  match s.users uid with
  | none => false
  | some r => truthy r.faculty && truthy r.major && truthy r.entryYear

/-- The `save_user_basic` upsert (lines 330-340): refresh username and full
name, keep the classification columns, then `ensure_stats`. -/
def saveUserBasic (s : BotState) (uid : UserId) (uname : Option String)
    (fname : String) : BotState :=
  { s with
      users := fun x =>
        if x = uid then
          some { username := uname
                 fullName := fname
                 faculty := match s.users uid with | some r => r.faculty | none => none
                 major := match s.users uid with | some r => r.major | none => none
                 entryYear := match s.users uid with | some r => r.entryYear | none => none }
        else s.users x
      mod := { s.mod with userStats := ensureStats s.mod.userStats uid } }

/-- Summary of what the private-chat message dispatcher did with one
message: which branch consumed it and what was sent where.
`raisedErr` marks executions in which the source raises (KeyError on a
missing scratch record, NOT NULL violation on insert); the exception is
caught at the handler boundary and the mutations made so far are kept. -/
inductive MsgAction where
  | ignored
  | raisedErr
  | adminDeletePrompt
  | adminDeleted (mid : Nat)
  | adminDeleteNotFound
  | adminBroadcastSent
  | userBroadcastRefused
  | userBroadcastSubmitted (bid : Nat)
  | relayed (partner : UserId) (text : String)
  | nonTextNotice (partner : UserId)
  | searchIgnored
  | searchResults (query : String)
  | uploadNeedPdf
  | uploadNotPdf
  | uploadGotPdf
  | uploadAskProf
  | uploadSubmitted (uploadId : Nat)
  | fallbackMenu
  | fallbackOnboard
deriving Repr, DecidableEq

/-- The private-chat dispatch of `on_message` (lines 1331-1519), after
`save_user_basic`.  The group-chat branch (lines 1266-1323) returns before
this dispatch and is outside the modelled entry conditions.  Branches are
tested in source order: admin delete mode, admin broadcast mode, user
broadcast mode, active pairing relay, search state, upload wizard,
fallback.  Python truthiness of `msg.text` (empty string falsy) is kept.
The admin-delete digit check models ASCII digits. -/
def onMessage (s0 : BotState) (uid : UserId) (m : Msg) : BotState × MsgAction :=
  let s := saveUserBasic s0 uid m.fromUsername m.fromFullName
  if isAdmin uid && s.adminDeleteMode uid then
    let s1 := { s with adminDeleteMode := fun x => if x = uid then false else s.adminDeleteMode x }
    match m.text with
    | none => (s1, .adminDeletePrompt)
    | some t =>
        if pyIsDigits (pyStrip t) then
          let mid := digitsToNat (pyStrip t).data
          match s1.mod.materials.find? (fun r => r.materialId == mid) with
          | none => (s1, .adminDeleteNotFound)
          | some _ =>
              ({ s1 with mod := { s1.mod with
                  materials := s1.mod.materials.filter (fun r => !(r.materialId == mid)) } },
               .adminDeleted mid)
        else (s1, .adminDeletePrompt)
  else if s.adminBroadcastMode uid && isAdmin uid then
    ({ s with adminBroadcastMode := fun x => if x = uid then false else s.adminBroadcastMode x },
     .adminBroadcastSent)
  else if s.userBroadcastMode uid then
    let s1 := { s with userBroadcastMode := fun x => if x = uid then false else s.userBroadcastMode x }
    let s2 := { s1 with mod := { s1.mod with userStats := ensureStats s1.mod.userStats uid } }
    if (s2.mod.userStats uid).getD 0 < 1 then (s2, .userBroadcastRefused)
    else
      match s2.users uid with
      | none => (s2, .raisedErr)
      | some u =>
          let bid := s2.nextBroadcastId
          ({ s2 with
              userBroadcasts := s2.userBroadcasts ++
                [{ bid := bid, userId := uid, faculty := u.faculty, major := u.major
                   entryYear := u.entryYear, messageChatId := m.chatId
                   messageId := m.messageId, status := .pending }]
              nextBroadcastId := bid + 1 },
           .userBroadcastSubmitted bid)
  else
    match s.chat.activeChat uid with
    | some partner =>
        let sid := s.chat.activeSession uid
        match m.text with
        | some t =>
            if t = "" then (s, .nonTextNotice partner)
            else
              ({ s with chatMessages := s.chatMessages ++ [⟨sid, uid, t⟩] },
               .relayed partner t)
        | none => (s, .nonTextNotice partner)
    | none =>
        if s.searchState uid then
          match m.text with
          | none => (s, .searchIgnored)
          | some t =>
              if t = "" then (s, .searchIgnored)
              else
                ({ s with searchState := fun x => if x = uid then false else s.searchState x },
                 .searchResults (pyStrip t))
        else
          match s.userState uid with
          | some .awaitPdf =>
              if !m.isDocument then (s, .uploadNeedPdf)
              else if !(pyEndsWith (pyLower (m.docFileName.getD "")) ".pdf") then (s, .uploadNotPdf)
              else
                match s.users uid with
                | none => (s, .raisedErr)
                | some u =>
                    ({ s with
                        tmp := fun x =>
                          if x = uid then
                            some { userChatId := m.chatId, userMessageId := m.messageId
                                   faculty := u.faculty, major := u.major
                                   entryYear := u.entryYear, courseName := none }
                          else s.tmp x
                        userState := fun x => if x = uid then some .awaitCourse else s.userState x },
                     .uploadGotPdf)
          | some .awaitCourse =>
              match m.text with
              | none => (s, .ignored)
              | some t =>
                  if t = "" then (s, .ignored)
                  else
                    match s.tmp uid with
                    | none => (s, .raisedErr)
                    | some d =>
                        ({ s with
                            tmp := fun x =>
                              if x = uid then some { d with courseName := some (pyStrip t) }
                              else s.tmp x
                            userState := fun x => if x = uid then some .awaitProf else s.userState x },
                         .uploadAskProf)
          | some .awaitProf =>
              match m.text with
              | none => (s, .ignored)
              | some t =>
                  if t = "" then (s, .ignored)
                  else
                    let profOpt : Option String :=
                      if pyStrip t = "-" ∨ pyStrip t = "—" then none
                      else some (pyStrip t)
                    match s.tmp uid with
                    | none => (s, .raisedErr)
                    | some d =>
                        match d.faculty, d.major, d.entryYear, d.courseName with
                        | some f, some mj, some y, some c =>
                            let uplId := s.mod.nextUploadId
                            ({ s with
                                mod := { s.mod with
                                  pendingUploads := s.mod.pendingUploads ++
                                    [{ uploadId := uplId, submitterId := uid, faculty := f
                                       major := mj, entryYear := y, courseName := c
                                       professorName := profOpt, userChatId := d.userChatId
                                       userMessageId := d.userMessageId, status := .pending }]
                                  nextUploadId := uplId + 1 }
                                userState := fun x => if x = uid then none else s.userState x
                                tmp := fun x => if x = uid then none else s.tmp x },
                             .uploadSubmitted uplId)
                        | _, _, _, _ => (s, .raisedErr)
          | none =>
              if userConfigured s uid then (s, .fallbackMenu)
              else (s, .fallbackOnboard)

/-- Summary of what a feature-entry button press did. -/
inductive BtnAction where
  | onboardRedirect
  | searchMenuShown
  | userBcNeedApproved
  | userBcArmed
  | uploadArmed
  | chatAlreadyIn
  | chatIntroShown
  | otherBranch
deriving Repr, DecidableEq

/-- The feature entry points of the button dispatcher `buttons()`
(lines 726-922) after `save_user_basic`: the `menu_search`, `menu_upload`,
`menu_user_bc` and `menu_chat` branches, each guarded by `user_configured`
before any effect.  All other callback tags are matched by other literal
branches of the source dispatch and are abstracted as `otherBranch`. -/
def onButton (s0 : BotState) (uid : UserId) (uname : Option String)
    (fname : String) (data : String) : BotState × BtnAction :=
  let s := saveUserBasic s0 uid uname fname
  if data = "menu_search" then
    if !(userConfigured s uid) then (s, .onboardRedirect)
    else (s, .searchMenuShown)
  else if data = "menu_upload" then
    if !(userConfigured s uid) then (s, .onboardRedirect)
    else
      ({ s with userState := fun x => if x = uid then some .awaitPdf else s.userState x },
       .uploadArmed)
  else if data = "menu_user_bc" then
    if !(userConfigured s uid) then (s, .onboardRedirect)
    else
      let s1 := { s with mod := { s.mod with userStats := ensureStats s.mod.userStats uid } }
      if (s1.mod.userStats uid).getD 0 < 1 then (s1, .userBcNeedApproved)
      else
        ({ s1 with userBroadcastMode := fun x => if x = uid then true else s1.userBroadcastMode x },
         .userBcArmed)
  else if data = "menu_chat" then
    if !(userConfigured s uid) then (s, .onboardRedirect)
    else
      let s1 :=
        if (s.mod.userStats uid).isSome then
          { s with chatUsed := fun x => if x = uid then true else s.chatUsed x }
        else s
      if (s1.chat.activeChat uid).isSome then (s1, .chatAlreadyIn)
      else (s1, .chatIntroShown)
  else (s, .otherBranch)

/-! ### Invariant of the matchmaking state -/

/-- The active session rows recorded for the unordered pair `{a, b}`. -/
def activeRowsFor (s : ChatState) (a b : UserId) : List Session :=
  s.sessions.filter (fun r => r.statusActive &&
    ((r.userA == a && r.userB == b) || (r.userA == b && r.userB == a)))

/-- The matchmaking invariant: the waiting queue is duplicate-free and
disjoint from the pairing map; the pairing map is symmetric and
irreflexive; paired users share one session pointer; and the session table
agrees with the maps (every active row describes a live pairing, every live
pairing has a matching row, session ids are unique, positive and below the
serial counter). -/
structure ChatInv (s : ChatState) : Prop where
  nodup : s.waitingQueue.Nodup
  disj : ∀ u ∈ s.waitingQueue, s.activeChat u = none
  sym : ∀ a b, s.activeChat a = some b → s.activeChat b = some a
  noSelf : ∀ a, s.activeChat a ≠ some a
  link : ∀ a b, s.activeChat a = some b →
    s.activeSession a = s.activeSession b ∧ (s.activeSession a).isSome
  rows : ∀ r ∈ s.sessions, r.statusActive = true →
    s.activeChat r.userA = some r.userB ∧ s.activeSession r.userA = some r.sessionId
  rowEx : ∀ a b sid, s.activeChat a = some b → s.activeSession a = some sid →
    ∃ r, r ∈ s.sessions ∧ r.statusActive = true ∧ r.sessionId = sid ∧
      ((r.userA = a ∧ r.userB = b) ∨ (r.userA = b ∧ r.userB = a))
  sidNodup : (s.sessions.map Session.sessionId).Nodup
  sidLt : ∀ r ∈ s.sessions, r.sessionId < s.nextSid
  sidPos : ∀ r ∈ s.sessions, 0 < r.sessionId
  nextPos : 0 < s.nextSid

/-! ### Concrete states used by witnesses and counterexamples -/

/-- A moderation state holding exactly one pending submission, id 42,
submitted by user 5 who has no stats row yet. -/
def dbOnePending : ModState :=
  { pendingUploads :=
      [{ uploadId := 42, submitterId := 5, faculty := "f", major := "m"
         entryYear := "1400", courseName := "c", professorName := none
         userChatId := 5, userMessageId := 10, status := .pending }]
    nextUploadId := 43
    materials := []
    nextMaterialId := 1
    userStats := fun _ => none
    nextArchiveMsgId := 100 }

/-- A moderation state whose only submission, id 42, is already approved. -/
def dbOneApproved : ModState :=
  { pendingUploads :=
      [{ uploadId := 42, submitterId := 5, faculty := "f", major := "m"
         entryYear := "1400", courseName := "c", professorName := none
         userChatId := 5, userMessageId := 10, status := .approved }]
    nextUploadId := 43
    materials := []
    nextMaterialId := 1
    userStats := fun _ => none
    nextArchiveMsgId := 100 }

/-- A rejected submission row, used to compare the source's status write
with the spec's gated one. -/
def rejectedRow : PendingUpload :=
  { uploadId := 7, submitterId := 5, faculty := "f", major := "m"
    entryYear := "1400", courseName := "c", professorName := none
    userChatId := 5, userMessageId := 10, status := .rejected }

/-- A matchmaking state with the single user 7 waiting. -/
def chatQ7 : ChatState := { initChat with waitingQueue := [7] }

/-- A matchmaking state in which user 9 (paired with 8, hence ineligible)
sits at the head of the queue in front of the eligible users 5, 6, 7. -/
def chatFifoEx : ChatState :=
  { initChat with
      waitingQueue := [9, 5, 6, 7]
      activeChat := fun x => if x = 9 then some 8 else if x = 8 then some 9 else none
      activeSession := fun x => if x = 9 then some 1 else if x = 8 then some 1 else none
      sessions := [⟨1, 8, 9, true⟩]
      nextSid := 2 }

/-- An empty bot state: no users, no state armed, nothing stored. -/
def baseBot : BotState :=
  { users := fun _ => none
    userState := fun _ => none
    tmp := fun _ => none
    searchState := fun _ => false
    adminBroadcastMode := fun _ => false
    adminDeleteMode := fun _ => false
    userBroadcastMode := fun _ => false
    chatUsed := fun _ => false
    chat := initChat
    chatMessages := []
    mod := { pendingUploads := [], nextUploadId := 1, materials := [], nextMaterialId := 1
             userStats := fun _ => none, nextArchiveMsgId := 1 }
    userBroadcasts := []
    nextBroadcastId := 1 }

/-- A matchmaking state in which users `a` and `b` are paired in session 1. -/
def pairedChat (a b : UserId) : ChatState :=
  { waitingQueue := []
    activeChat := fun x => if x = a then some b else if x = b then some a else none
    activeSession := fun x => if x = a then some 1 else if x = b then some 1 else none
    sessions := [⟨1, a, b, true⟩]
    nextSid := 2 }

/-- The admin is paired with user 7 while their delete-by-id mode is armed. -/
def botAdminDelPaired : BotState :=
  { baseBot with
      adminDeleteMode := fun x => if x = adminId then true else false
      chat := pairedChat adminId 7 }

/-- User 3 is paired with user 4 while simultaneously having search state
armed and an upload wizard step armed; no one-shot broadcast or delete
mode is armed. -/
def botRelayEx : BotState :=
  { baseBot with
      searchState := fun x => if x = 3 then true else false
      userState := fun x => if x = 3 then some .awaitCourse else none
      chat := pairedChat 3 4 }

/-- User 3 is paired with user 4 while their broadcast draft mode is armed
and they have one approved upload. -/
def botBcPaired : BotState :=
  { baseBot with
      userBroadcastMode := fun x => if x = 3 then true else false
      users := fun x => if x = 3 then
          some { username := none, fullName := "u", faculty := some "f"
                 major := some "m", entryYear := some "y" }
        else none
      mod := { baseBot.mod with userStats := fun x => if x = 3 then some 1 else none }
      chat := pairedChat 3 4 }

/-- User 3 is at the attribution step of the upload wizard with a complete
scratch record and no other state armed. -/
def botAwaitProf : BotState :=
  { baseBot with
      users := fun x => if x = 3 then
          some { username := none, fullName := "u", faculty := some "f"
                 major := some "m", entryYear := some "y" }
        else none
      userState := fun x => if x = 3 then some .awaitProf else none
      tmp := fun x => if x = 3 then
          some { userChatId := 3, userMessageId := 10, faculty := some "f"
                 major := some "m", entryYear := some "y", courseName := some "c" }
        else none }

/-- A plain text message reading "hello". -/
def msgHello : Msg :=
  { text := some "hello", isDocument := false, docFileName := none
    chatId := 1, messageId := 1, fromUsername := none, fromFullName := "a" }

/-- A non-text message (a photo, say). -/
def msgPhoto : Msg :=
  { text := none, isDocument := false, docFileName := none
    chatId := 1, messageId := 1, fromUsername := none, fromFullName := "a" }

/-- A text message whose text is a space followed by "x". -/
def msgSpaceX : Msg :=
  { text := some " x", isDocument := false, docFileName := none
    chatId := 1, messageId := 1, fromUsername := none, fromFullName := "a" }

/-- A text message holding the attribution sentinel "-". -/
def msgDash : Msg :=
  { text := some "-", isDocument := false, docFileName := none
    chatId := 1, messageId := 1, fromUsername := none, fromFullName := "a" }

/-! ## Helper lemmas -/

theorem scanQueue_none {uid : UserId} {ac : UserId → Option UserId} :
    ∀ {q rest : List UserId}, scanQueue uid ac q = (none, rest) → rest = [] := by
  intro q
  induction q with
  | nil =>
      intro rest h
      simp only [scanQueue, Prod.mk.injEq] at h
      exact h.2.symm
  | cons c t ih =>
      intro rest h
      by_cases hc : c ≠ uid ∧ ac c = none
      · simp only [scanQueue, if_pos hc, Prod.mk.injEq] at h
        exact absurd h.1 (by simp)
      · simp only [scanQueue, if_neg hc] at h
        exact ih h

theorem scanQueue_some {uid : UserId} {ac : UserId → Option UserId} :
    ∀ {q : List UserId} {p : UserId} {rest : List UserId},
      scanQueue uid ac q = (some p, rest) →
      p ≠ uid ∧ ac p = none ∧
        ∃ pre, q = pre ++ p :: rest ∧ ∀ x ∈ pre, ¬(x ≠ uid ∧ ac x = none) := by
  intro q
  induction q with
  | nil =>
      intro p rest h
      simp only [scanQueue, Prod.mk.injEq] at h
      exact absurd h.1 (by simp)
  | cons c t ih =>
      intro p rest h
      by_cases hc : c ≠ uid ∧ ac c = none
      · simp only [scanQueue, if_pos hc, Prod.mk.injEq, Option.some.injEq] at h
        obtain ⟨rfl, rfl⟩ := h
        exact ⟨hc.1, hc.2, [], rfl, by simp⟩
      · simp only [scanQueue, if_neg hc] at h
        obtain ⟨h1, h2, pre, rfl, hpre⟩ := ih h
        refine ⟨h1, h2, c :: pre, rfl, ?_⟩
        intro x hx
        rcases List.mem_cons.mp hx with rfl | hx
        · exact hc
        · exact hpre x hx

theorem scanQueue_first {uid : UserId} {ac : UserId → Option UserId} :
    ∀ (pre : List UserId), (∀ x ∈ pre, ¬(x ≠ uid ∧ ac x = none)) →
      ∀ {u1 : UserId} {rest : List UserId}, u1 ≠ uid → ac u1 = none →
        scanQueue uid ac (pre ++ u1 :: rest) = (some u1, rest) := by
  intro pre
  induction pre with
  | nil =>
      intro _ u1 rest h1 h2
      simp only [List.nil_append, scanQueue]
      rw [if_pos ⟨h1, h2⟩]
  | cons c t ih =>
      intro hpre u1 rest h1 h2
      have hc := hpre c (by simp)
      simp only [List.cons_append, scanQueue]
      rw [if_neg hc]
      exact ih (fun x hx => hpre x (by simp [hx])) h1 h2

theorem chatJoin_paired_eq (s : ChatState) (uid p : UserId) (rest : List UserId)
    (hA : s.activeChat uid = none) (hQ : uid ∉ s.waitingQueue)
    (hscan : scanQueue uid s.activeChat s.waitingQueue = (some p, rest)) :
    chatJoin s uid =
      ({ waitingQueue := rest
         activeChat := fun x =>
           if x = p then some uid else if x = uid then some p else s.activeChat x
         activeSession := fun x =>
           if x = p then some s.nextSid else if x = uid then some s.nextSid
           else s.activeSession x
         sessions := s.sessions ++ [⟨s.nextSid, uid, p, true⟩]
         nextSid := s.nextSid + 1 },
       .paired p s.nextSid) := by
  unfold chatJoin
  rw [hA]
  simp only [Option.isSome_none, Bool.false_eq_true, if_false, if_neg hQ, hscan]
  rfl

theorem chatJoin_waiting_eq (s : ChatState) (uid : UserId) (rest : List UserId)
    (hA : s.activeChat uid = none) (hQ : uid ∉ s.waitingQueue)
    (hscan : scanQueue uid s.activeChat s.waitingQueue = (none, rest)) :
    chatJoin s uid = ({ s with waitingQueue := rest ++ [uid] }, .waiting) := by
  unfold chatJoin
  rw [hA]
  simp only [Option.isSome_none, Bool.false_eq_true, if_false, if_neg hQ, hscan]

theorem eq_singleton_of_forall_eq {α : Type} {l : List α} {x : α}
    (hnd : l.Nodup) (hx : x ∈ l) (hall : ∀ y ∈ l, y = x) : l = [x] := by
  cases l with
  | nil => cases hx
  | cons a t =>
      have ha : a = x := hall a (List.mem_cons_self a t)
      subst ha
      cases t with
      | nil => rfl
      | cons b t2 =>
          have hb : b = a := hall b (by simp)
          subst hb
          simp [List.nodup_cons] at hnd

theorem endSession_map_sid (rows : List Session) (sid : Nat) :
    (endSession rows sid).map Session.sessionId = rows.map Session.sessionId := by
  unfold endSession
  rw [List.map_map]
  refine List.map_congr_left ?_
  intro r _
  by_cases h : r.sessionId = sid <;> simp [Function.comp, h]

theorem mem_endSession_elim {rows : List Session} {sid : Nat} {r' : Session}
    (h : r' ∈ endSession rows sid) :
    ∃ r, r ∈ rows ∧
      r' = if r.sessionId = sid then { r with statusActive := false } else r := by
  unfold endSession at h
  rcases List.mem_map.mp h with ⟨r, hr, heq⟩
  exact ⟨r, hr, heq.symm⟩

theorem mem_endSession_of_ne {rows : List Session} {sid : Nat} {r : Session}
    (hr : r ∈ rows) (hne : r.sessionId ≠ sid) : r ∈ endSession rows sid := by
  unfold endSession
  have h2 := List.mem_map_of_mem
    (fun x => if x.sessionId = sid then { x with statusActive := false } else x) hr
  dsimp only at h2
  rw [if_neg hne] at h2
  exact h2

theorem session_eq_of_sid_eq {s : ChatState} (h : ChatInv s) {r1 r2 : Session}
    (h1 : r1 ∈ s.sessions) (h2 : r2 ∈ s.sessions)
    (he : r1.sessionId = r2.sessionId) : r1 = r2 :=
  List.inj_on_of_nodup_map h.sidNodup h1 h2 he

theorem chatInv_init : ChatInv initChat := by
  refine ⟨?_, ?_, ?_, ?_, ?_, ?_, ?_, ?_, ?_, ?_, ?_⟩ <;> simp [initChat]

theorem chatInv_erase_queue (s : ChatState) (uid : UserId) (h : ChatInv s) :
    ChatInv { s with waitingQueue := s.waitingQueue.erase uid } :=
  ⟨h.nodup.erase uid,
   fun u hu => h.disj u (List.mem_of_mem_erase hu),
   h.sym, h.noSelf, h.link, h.rows, h.rowEx, h.sidNodup, h.sidLt, h.sidPos, h.nextPos⟩

theorem chatInv_cancel (s : ChatState) (uid : UserId) (h : ChatInv s) :
    ChatInv (chatCancel s uid) := by
  unfold chatCancel
  by_cases hw : uid ∈ s.waitingQueue
  · rw [if_pos hw]; exact chatInv_erase_queue s uid h
  · rw [if_neg hw]; exact h

theorem chatInv_endChatDrop (s : ChatState) (uid : UserId) (h : ChatInv s) :
    ChatInv (endChatDrop s uid) := by
  unfold endChatDrop
  by_cases hw : uid ∈ s.waitingQueue
  · rw [if_pos hw]; exact chatInv_erase_queue s uid h
  · rw [if_neg hw]; exact h

theorem chatInv_join (s : ChatState) (uid : UserId) (h : ChatInv s) :
    ChatInv (chatJoin s uid).1 := by
  by_cases hA : (s.activeChat uid).isSome
  · unfold chatJoin; rw [if_pos hA]; exact h
  · have hA' : s.activeChat uid = none := by
      cases hEq : s.activeChat uid
      · rfl
      · rw [hEq] at hA; simp at hA
    by_cases hQ : uid ∈ s.waitingQueue
    · unfold chatJoin
      rw [hA']
      simp only [Option.isSome_none, Bool.false_eq_true, if_false, if_pos hQ]
      exact h
    · rcases hscan : scanQueue uid s.activeChat s.waitingQueue with ⟨op, rest⟩
      cases op with
      | none =>
          have hrest := scanQueue_none hscan
          subst hrest
          rw [chatJoin_waiting_eq s uid [] hA' hQ hscan]
          refine ⟨by simp, ?_, h.sym, h.noSelf, h.link, h.rows, h.rowEx,
            h.sidNodup, h.sidLt, h.sidPos, h.nextPos⟩
          intro u hu
          simp at hu
          subst hu
          exact hA'
      | some p =>
          obtain ⟨hp_ne, hp_ac, pre, hqeq, hpre⟩ := scanQueue_some hscan
          rw [chatJoin_paired_eq s uid p rest hA' hQ hscan]
          have hsubl : List.Sublist (p :: rest) s.waitingQueue := by
            rw [hqeq]; exact List.sublist_append_right pre (p :: rest)
          have hndpr : (p :: rest).Nodup := h.nodup.sublist hsubl
          have hpnotin : p ∉ rest := (List.nodup_cons.mp hndpr).1
          have hndr : rest.Nodup := (List.nodup_cons.mp hndpr).2
          have hrsub : ∀ x ∈ rest, x ∈ s.waitingQueue := by
            intro x hx
            rw [hqeq]
            exact List.mem_append_right pre (List.mem_cons_of_mem p hx)
          have huidr : uid ∉ rest := fun hx => hQ (hrsub uid hx)
          have huid_ne_p : uid ≠ p := fun e => hp_ne e.symm
          refine ⟨hndr, ?_, ?_, ?_, ?_, ?_, ?_, ?_, ?_, ?_, ?_⟩
          · intro u hu
            have hup : u ≠ p := fun e => hpnotin (e ▸ hu)
            have huu : u ≠ uid := fun e => huidr (e ▸ hu)
            dsimp only
            rw [if_neg hup, if_neg huu]
            exact h.disj u (hrsub u hu)
          · intro a b hab
            dsimp only at hab ⊢
            by_cases hap : a = p
            · rw [if_pos hap] at hab
              injection hab with hb
              rw [← hb, if_neg huid_ne_p, if_pos rfl, hap]
            · rw [if_neg hap] at hab
              by_cases hau : a = uid
              · rw [if_pos hau] at hab
                injection hab with hb
                rw [← hb, if_pos rfl, hau]
              · rw [if_neg hau] at hab
                have hsym := h.sym a b hab
                have hbu : b ≠ uid := by
                  intro e; rw [e, hA'] at hsym; cases hsym
                have hbp : b ≠ p := by
                  intro e; rw [e, hp_ac] at hsym; cases hsym
                rw [if_neg hbp, if_neg hbu]
                exact hsym
          · intro a
            dsimp only
            by_cases hap : a = p
            · rw [if_pos hap]
              intro e
              injection e with e2
              exact huid_ne_p (e2.trans hap)
            · rw [if_neg hap]
              by_cases hau : a = uid
              · rw [if_pos hau]
                intro e
                injection e with e2
                exact hp_ne (e2.trans hau)
              · rw [if_neg hau]
                exact h.noSelf a
          · intro a b hab
            dsimp only at hab ⊢
            by_cases hap : a = p
            · rw [if_pos hap] at hab
              injection hab with hb
              rw [← hb]
              constructor
              · simp [hap, huid_ne_p]
              · simp [hap]
            · rw [if_neg hap] at hab
              by_cases hau : a = uid
              · rw [if_pos hau] at hab
                injection hab with hb
                rw [← hb]
                constructor
                · simp [hau, hap, huid_ne_p]
                · simp [hau, hap, huid_ne_p]
              · rw [if_neg hau] at hab
                have hsym := h.sym a b hab
                have hbu : b ≠ uid := by
                  intro e; rw [e, hA'] at hsym; cases hsym
                have hbp : b ≠ p := by
                  intro e; rw [e, hp_ac] at hsym; cases hsym
                simp only [if_neg hap, if_neg hau, if_neg hbp, if_neg hbu]
                exact h.link a b hab
          · intro r hr hract
            dsimp only at hr ⊢
            rcases List.mem_append.mp hr with hrold | hrnew
            · obtain ⟨hc1, hc2⟩ := h.rows r hrold hract
              have hA1 : r.userA ≠ uid := by
                intro e; rw [e, hA'] at hc1; cases hc1
              have hA2 : r.userA ≠ p := by
                intro e; rw [e, hp_ac] at hc1; cases hc1
              constructor
              · rw [if_neg hA2, if_neg hA1]; exact hc1
              · rw [if_neg hA2, if_neg hA1]; exact hc2
            · simp only [List.mem_singleton] at hrnew
              subst hrnew
              constructor
              · dsimp only
                rw [if_neg huid_ne_p, if_pos rfl]
              · dsimp only
                rw [if_neg huid_ne_p, if_pos rfl]
          · intro a b sid hab hsess
            dsimp only at hab hsess ⊢
            by_cases hap : a = p
            · rw [if_pos hap] at hab hsess
              injection hab with hb
              injection hsess with hs
              refine ⟨⟨s.nextSid, uid, p, true⟩, ?_, rfl, hs, Or.inr ⟨hb, hap.symm⟩⟩
              exact List.mem_append_right _ (by simp)
            · rw [if_neg hap] at hab hsess
              by_cases hau : a = uid
              · rw [if_pos hau] at hab hsess
                injection hab with hb
                injection hsess with hs
                refine ⟨⟨s.nextSid, uid, p, true⟩, ?_, rfl, hs, Or.inl ⟨hau.symm, hb⟩⟩
                exact List.mem_append_right _ (by simp)
              · rw [if_neg hau] at hab hsess
                obtain ⟨r, hrmem, hract, hrsid, hrpair⟩ := h.rowEx a b sid hab hsess
                exact ⟨r, List.mem_append_left _ hrmem, hract, hrsid, hrpair⟩
          · dsimp only
            rw [List.map_append, List.nodup_append]
            refine ⟨h.sidNodup, by simp, ?_⟩
            intro x hx hx2
            simp only [List.map_cons, List.map_nil, List.mem_singleton] at hx2
            subst hx2
            rcases List.mem_map.mp hx with ⟨r, hrmem, hrsid⟩
            have hlt := h.sidLt r hrmem
            omega
          · intro r hr
            dsimp only at hr ⊢
            rcases List.mem_append.mp hr with hrold | hrnew
            · exact Nat.lt_succ_of_lt (h.sidLt r hrold)
            · simp only [List.mem_singleton] at hrnew
              subst hrnew
              exact Nat.lt_succ_self _
          · intro r hr
            dsimp only at hr
            rcases List.mem_append.mp hr with hrold | hrnew
            · exact h.sidPos r hrold
            · simp only [List.mem_singleton] at hrnew
              subst hrnew
              exact h.nextPos
          · exact Nat.succ_pos _

theorem endChatPaired_eq (t : ChatState) (uid partner : UserId) (sid : Nat)
    (hsid : t.activeSession uid = some sid) (h0 : sid ≠ 0) :
    endChatPaired t uid partner =
      { waitingQueue := t.waitingQueue
        activeChat := fun x =>
          if x = partner then none else if x = uid then none else t.activeChat x
        activeSession := fun x =>
          if x = partner then none else if x = uid then none else t.activeSession x
        sessions := endSession t.sessions sid
        nextSid := t.nextSid } := by
  unfold endChatPaired
  simp only [hsid]
  rw [if_neg h0]
  unfold clearPair upd
  rfl

theorem chatInv_endChatPaired (t : ChatState) (uid partner : UserId)
    (h : ChatInv t) (hac : t.activeChat uid = some partner) :
    ChatInv (endChatPaired t uid partner) := by
  have hsymp : t.activeChat partner = some uid := h.sym uid partner hac
  have hne : partner ≠ uid := by
    intro e
    rw [e] at hac
    exact h.noSelf uid hac
  obtain ⟨hlinkEq, hlinkSome⟩ := h.link uid partner hac
  obtain ⟨sid, hsid⟩ := Option.isSome_iff_exists.mp hlinkSome
  have hsidp : t.activeSession partner = some sid := by rw [← hlinkEq]; exact hsid
  obtain ⟨r0, hr0mem, hr0act, hr0sid, hr0pair⟩ := h.rowEx uid partner sid hac hsid
  have h0 : sid ≠ 0 := by
    have hpos := h.sidPos r0 hr0mem
    omega
  rw [endChatPaired_eq t uid partner sid hsid h0]
  refine ⟨h.nodup, ?_, ?_, ?_, ?_, ?_, ?_, ?_, ?_, ?_, h.nextPos⟩
  · intro u hu
    dsimp only
    by_cases h1 : u = partner
    · rw [if_pos h1]
    · rw [if_neg h1]
      by_cases h2 : u = uid
      · rw [if_pos h2]
      · rw [if_neg h2]
        exact h.disj u hu
  · intro a b hab
    dsimp only at hab ⊢
    by_cases h1 : a = partner
    · rw [if_pos h1] at hab; cases hab
    · rw [if_neg h1] at hab
      by_cases h2 : a = uid
      · rw [if_pos h2] at hab; cases hab
      · rw [if_neg h2] at hab
        have hsab := h.sym a b hab
        have hb1 : b ≠ partner := by
          intro e; subst e
          rw [hsymp] at hsab
          injection hsab with e2
          exact h2 e2.symm
        have hb2 : b ≠ uid := by
          intro e; subst e
          rw [hac] at hsab
          injection hsab with e2
          exact h1 e2.symm
        rw [if_neg hb1, if_neg hb2]
        exact hsab
  · intro a
    dsimp only
    by_cases h1 : a = partner
    · rw [if_pos h1]
      intro e
      cases e
    · rw [if_neg h1]
      by_cases h2 : a = uid
      · rw [if_pos h2]
        intro e
        cases e
      · rw [if_neg h2]
        exact h.noSelf a
  · intro a b hab
    dsimp only at hab ⊢
    by_cases h1 : a = partner
    · rw [if_pos h1] at hab; cases hab
    · rw [if_neg h1] at hab
      by_cases h2 : a = uid
      · rw [if_pos h2] at hab; cases hab
      · rw [if_neg h2] at hab
        have hsab := h.sym a b hab
        have hb1 : b ≠ partner := by
          intro e; subst e
          rw [hsymp] at hsab
          injection hsab with e2
          exact h2 e2.symm
        have hb2 : b ≠ uid := by
          intro e; subst e
          rw [hac] at hsab
          injection hsab with e2
          exact h1 e2.symm
        simp only [if_neg h1, if_neg h2, if_neg hb1, if_neg hb2]
        exact h.link a b hab
  · intro r' hr' hact
    dsimp only at hr' ⊢
    obtain ⟨r, hrmem, hreq⟩ := mem_endSession_elim hr'
    by_cases hrs : r.sessionId = sid
    · rw [if_pos hrs] at hreq
      subst hreq
      cases hact
    · rw [if_neg hrs] at hreq
      rw [hreq] at hact ⊢
      obtain ⟨hc1, hc2⟩ := h.rows r hrmem hact
      have hA1 : r.userA ≠ uid := by
        intro e
        rw [e, hsid] at hc2
        injection hc2 with e2
        exact hrs e2.symm
      have hA2 : r.userA ≠ partner := by
        intro e
        rw [e, hsidp] at hc2
        injection hc2 with e2
        exact hrs e2.symm
      constructor
      · rw [if_neg hA2, if_neg hA1]; exact hc1
      · rw [if_neg hA2, if_neg hA1]; exact hc2
  · intro a b sid' hab hsess
    dsimp only at hab hsess ⊢
    by_cases h1 : a = partner
    · rw [if_pos h1] at hab; cases hab
    · rw [if_neg h1] at hab
      by_cases h2 : a = uid
      · rw [if_pos h2] at hab; cases hab
      · rw [if_neg h2] at hab
        rw [if_neg h1, if_neg h2] at hsess
        have hsab := h.sym a b hab
        have hb1 : b ≠ partner := by
          intro e; subst e
          rw [hsymp] at hsab
          injection hsab with e2
          exact h2 e2.symm
        have hb2 : b ≠ uid := by
          intro e; subst e
          rw [hac] at hsab
          injection hsab with e2
          exact h1 e2.symm
        obtain ⟨r, hrmem, hract, hrsid, hrpair⟩ := h.rowEx a b sid' hab hsess
        have hrs : r.sessionId ≠ sid := by
          intro e
          have hrr0 : r = r0 := session_eq_of_sid_eq h hrmem hr0mem (by rw [e, hr0sid])
          subst hrr0
          rcases hrpair with ⟨hpa, hpb⟩ | ⟨hpa, hpb⟩ <;>
            rcases hr0pair with ⟨qa, qb⟩ | ⟨qa, qb⟩
          · exact h2 (hpa.symm.trans qa)
          · exact h1 (hpa.symm.trans qa)
          · exact hb2 (hpa.symm.trans qa)
          · exact hb1 (hpa.symm.trans qa)
        exact ⟨r, mem_endSession_of_ne hrmem hrs, hract, hrsid, hrpair⟩
  · dsimp only
    rw [endSession_map_sid]
    exact h.sidNodup
  · intro r' hr'
    dsimp only at hr' ⊢
    obtain ⟨r, hrmem, hreq⟩ := mem_endSession_elim hr'
    have he : r'.sessionId = r.sessionId := by
      subst hreq
      by_cases hrs : r.sessionId = sid <;> simp [hrs]
    rw [he]
    exact h.sidLt r hrmem
  · intro r' hr'
    dsimp only at hr'
    obtain ⟨r, hrmem, hreq⟩ := mem_endSession_elim hr'
    have he : r'.sessionId = r.sessionId := by
      subst hreq
      by_cases hrs : r.sessionId = sid <;> simp [hrs]
    rw [he]
    exact h.sidPos r hrmem

theorem chatInv_endChat (s : ChatState) (uid : UserId) (h : ChatInv s) :
    ChatInv (endChat s uid) := by
  have h1 : ChatInv (endChatDrop s uid) := chatInv_endChatDrop s uid h
  unfold endChat
  cases hac : (endChatDrop s uid).activeChat uid with
  | none => exact h1
  | some partner => exact chatInv_endChatPaired _ uid partner h1 hac

theorem chatInv_applyOp (s : ChatState) (op : ChatOp) (h : ChatInv s) :
    ChatInv (applyOp s op) := by
  cases op with
  | join u => exact chatInv_join s u h
  | cancel u => exact chatInv_cancel s u h
  | endc u => exact chatInv_endChat s u h

theorem chatInv_runOps (ops : List ChatOp) : ∀ s, ChatInv s → ChatInv (runOps s ops) := by
  induction ops with
  | nil => intro s h; exact h
  | cons op rest ih =>
      intro s h
      exact ih (applyOp s op) (chatInv_applyOp s op h)

theorem chatInv_unique_active_row (s : ChatState) (h : ChatInv s) (a b : UserId)
    (hab : s.activeChat a = some b) :
    s.activeChat b = some a ∧
    ∃ sid, s.activeSession a = some sid ∧ s.activeSession b = some sid ∧
      (activeRowsFor s a b).map Session.sessionId = [sid] := by
  have hba := h.sym a b hab
  obtain ⟨hlk, hlsome⟩ := h.link a b hab
  obtain ⟨sid, hsa⟩ := Option.isSome_iff_exists.mp hlsome
  have hsb : s.activeSession b = some sid := by rw [← hlk]; exact hsa
  obtain ⟨r0, hr0mem, hr0act, hr0sid, hr0pair⟩ := h.rowEx a b sid hab hsa
  refine ⟨hba, sid, hsa, hsb, ?_⟩
  have hall : ∀ r ∈ activeRowsFor s a b, r = r0 := by
    intro r hr
    have hrmem : r ∈ s.sessions := List.mem_of_mem_filter hr
    have hprop := List.of_mem_filter hr
    simp only [Bool.and_eq_true, Bool.or_eq_true, beq_iff_eq] at hprop
    obtain ⟨hract, hpair⟩ := hprop
    obtain ⟨hc1, hc2⟩ := h.rows r hrmem hract
    have hsidr : r.sessionId = sid := by
      rcases hpair with ⟨hra, hrb⟩ | ⟨hra, hrb⟩
      · rw [hra, hsa] at hc2
        injection hc2 with e
        exact e.symm
      · rw [hra, hsb] at hc2
        injection hc2 with e
        exact e.symm
    exact session_eq_of_sid_eq h hrmem hr0mem (by rw [hsidr, hr0sid])
  have hr0in : r0 ∈ activeRowsFor s a b := by
    unfold activeRowsFor
    refine List.mem_filter_of_mem hr0mem ?_
    simp only [Bool.and_eq_true, Bool.or_eq_true, beq_iff_eq]
    refine ⟨hr0act, ?_⟩
    rcases hr0pair with ⟨x, y⟩ | ⟨x, y⟩
    · exact Or.inl ⟨x, y⟩
    · exact Or.inr ⟨x, y⟩
  have hnd : (activeRowsFor s a b).Nodup := by
    have hsn : s.sessions.Nodup := h.sidNodup.of_map _
    unfold activeRowsFor
    exact hsn.filter _
  rw [eq_singleton_of_forall_eq hnd hr0in hall]
  simp [hr0sid]

/-! ## Claims C4, C5, C6 and C7 -/

/-- C5: disjointness — starting from the empty state, after any sequence of
join, cancel and end operations, no user id is both in the waiting queue
and in the active pairing map. -/
theorem queue_pairing_disjoint (ops : List ChatOp) (u : UserId)
    (hu : u ∈ (runOps initChat ops).waitingQueue) :
    (runOps initChat ops).activeChat u = none :=
  (chatInv_runOps ops initChat chatInv_init).disj u hu

/-- Witness for C5: after a single join, user 3 is in the queue and not in
the pairing map. -/
theorem queue_pairing_disjoint_witness :
    (3 : Int) ∈ (runOps initChat [ChatOp.join 3]).waitingQueue ∧
    (runOps initChat [ChatOp.join 3]).activeChat 3 = none :=
  ⟨by decide, queue_pairing_disjoint [ChatOp.join 3] 3 (by decide)⟩

/-- C6: pairing symmetry and session uniqueness — starting from the empty
state, after any sequence of join, cancel and end operations, whenever the
pairing map sends `a` to `b` it also sends `b` to `a` (so `map a = b` iff
`map b = a`), and the pair shares exactly one active session id: both
`active_session` entries hold the same id and exactly one active
`chat_sessions` row exists for the pair, bearing that id. -/
theorem pairing_symmetric_unique_session (ops : List ChatOp) (a b : UserId)
    (hab : (runOps initChat ops).activeChat a = some b) :
    (runOps initChat ops).activeChat b = some a ∧
    ∃ sid, (runOps initChat ops).activeSession a = some sid ∧
      (runOps initChat ops).activeSession b = some sid ∧
      (activeRowsFor (runOps initChat ops) a b).map Session.sessionId = [sid] :=
  chatInv_unique_active_row (runOps initChat ops)
    (chatInv_runOps ops initChat chatInv_init) a b hab

/-- Witness for C6: after users 1 and 2 join and get paired, the map is
symmetric between them and they share the single active session 1. -/
theorem pairing_symmetric_unique_session_witness :
    (runOps initChat [ChatOp.join 1, ChatOp.join 2]).activeChat 2 = some 1 ∧
    (runOps initChat [ChatOp.join 1, ChatOp.join 2]).activeChat 1 = some 2 ∧
    ∃ sid, (runOps initChat [ChatOp.join 1, ChatOp.join 2]).activeSession 2 = some sid ∧
      (runOps initChat [ChatOp.join 1, ChatOp.join 2]).activeSession 1 = some sid ∧
      (activeRowsFor (runOps initChat [ChatOp.join 1, ChatOp.join 2]) 2 1).map
        Session.sessionId = [sid] := by
  have h := pairing_symmetric_unique_session [ChatOp.join 1, ChatOp.join 2] 2 1 (by decide)
  exact ⟨by decide, h.1, h.2⟩

/-! ## Claims C4 and C7 -/

/-- C4: `chat_join` is strict FIFO — the new joiner is paired with the
candidate closest to the head of the waiting queue among those distinct
from the joiner and not actively paired; ineligible entries ahead of it
are skipped.  With waiting users U1, U2, U3 in order (`u1 :: rest` after
an ineligible segment `pre`), the joiner pairs with U1 and never with a
later eligible user. -/
theorem join_fifo_first_eligible (s : ChatState) (j u1 : UserId)
    (pre rest : List UserId)
    (hA : s.activeChat j = none) (hQ : j ∉ s.waitingQueue)
    (hq : s.waitingQueue = pre ++ u1 :: rest)
    (hpre : ∀ x ∈ pre, x = j ∨ (s.activeChat x).isSome)
    (h1 : u1 ≠ j) (h2 : s.activeChat u1 = none) :
    (chatJoin s j).2 = .paired u1 s.nextSid := by
  have hscan : scanQueue j s.activeChat s.waitingQueue = (some u1, rest) := by
    rw [hq]
    refine scanQueue_first pre ?_ h1 h2
    intro x hx hcontra
    rcases hpre x hx with rfl | hs
    · exact hcontra.1 rfl
    · rw [hcontra.2] at hs
      simp at hs
  rw [chatJoin_paired_eq s j u1 rest hA hQ hscan]

/-- Witness for C4 at a concrete state: the head entry 9 is paired (hence
skipped) and the joiner 3 pairs with 5, the earliest eligible waiter,
not with 6 or 7. -/
theorem join_fifo_first_eligible_witness :
    chatFifoEx.activeChat 3 = none ∧ (3 : Int) ∉ chatFifoEx.waitingQueue ∧
    chatFifoEx.waitingQueue = [9] ++ 5 :: [6, 7] ∧
    (∀ x ∈ [(9 : Int)], x = 3 ∨ (chatFifoEx.activeChat x).isSome) ∧
    (5 : Int) ≠ 3 ∧ chatFifoEx.activeChat 5 = none ∧
    (chatJoin chatFifoEx 3).2 = .paired 5 chatFifoEx.nextSid :=
  ⟨by decide, by decide, by decide, by decide, by decide, by decide,
   join_fifo_first_eligible chatFifoEx 3 5 [9] [6, 7] (by decide) (by decide)
     (by decide) (by decide) (by decide) (by decide)⟩

/-- C7 counterexample: processing a join event for user 9 at a state where
user 7 waits, with the pairing notification raising, leaves the state
changed — user 9 is paired with 7 afterwards although the exception was
raised during the event and caught at the router boundary.  The claim
that the sender's state is left exactly as before the event is false. -/
theorem router_state_not_restored_cex :
    isRaised (chatJoinSend chatQ7 9 false) = true ∧
    chatQ7.activeChat 9 = none ∧
    (routerChatJoin chatQ7 9 false).activeChat 9 = some 7 := by
  refine ⟨by decide, by decide, by decide⟩

/-- C7 amended: an exception raised by an outbound send inside the
`chat_join` handler is caught at the router boundary and the event is
dropped, but the state is not rolled back: the router leaves exactly the
state the handler had already mutated (all mutations precede the sends,
so it coincides with the state of a completed `chat_join`). -/
theorem router_catches_and_keeps_state (s : ChatState) (uid : UserId) (sendOk : Bool) :
    routerChatJoin s uid sendOk = (chatJoin s uid).1 := by
  unfold routerChatJoin chatJoinSend chatJoin
  by_cases hA : (s.activeChat uid).isSome
  · simp [hA]
  · by_cases hQ : uid ∈ s.waitingQueue
    · cases sendOk <;> simp [hA, hQ]
    · rcases hscan : scanQueue uid s.activeChat s.waitingQueue with ⟨op, rest⟩
      cases op <;> cases sendOk <;> simp [hA, hQ, hscan]

/-! ## Claims C1 and C2 -/

/-- C1 counterexample: the status write of `approve_upload` (line 492) is an
unconditional `UPDATE ... WHERE upload_id=%s`, not the gated
compare-and-swap the claim describes, and two approve invocations racing
across the archive-copy await both perform the side effects: from a state
with one pending submission (id 42 by user 5) and an empty catalog, the
raced run inserts two catalog entries and advances the submitter's counter
to 2; moreover the source's status write differs from the spec's gated
write on a rejected row. -/
theorem approve_cas_claim_cex :
    (approveUploadRaced dbOnePending 42).materials.length = 2 ∧
    (approveUploadRaced dbOnePending 42).userStats 5 = some 2 ∧
    setApproved [rejectedRow] 7 ≠ setApprovedGatedSpec [rejectedRow] 7 :=
  ⟨by decide, by decide, by decide⟩

/-- C1 amended: the only guard in `approve_upload` is the fetch filtered on
`status='pending'` (check-then-act): whenever the fetch finds a row that
row is pending, and two invocations that both fetch before either resumes
from the archive-copy await each perform the catalog-insert and counter
side effects — two new catalog entries and a counter advanced by two. -/
theorem approve_guard_only_at_fetch (db : ModState) (uploadId : Nat)
    (row : PendingUpload) (h : fetchPendingRow db uploadId = some row) :
    row.status = .pending ∧
    (approveUploadRaced db uploadId).materials.length = db.materials.length + 2 ∧
    (approveUploadRaced db uploadId).userStats row.submitterId =
      some ((db.userStats row.submitterId).getD 0 + 2) := by
  have hpred : row.status = SubStatus.pending := by
    have h2 := h
    unfold fetchPendingRow at h2
    have h3 := List.find?_some h2
    simp only [Bool.and_eq_true, beq_iff_eq] at h3
    exact h3.2
  refine ⟨hpred, ?_, ?_⟩
  · unfold approveUploadRaced
    rw [h]
    simp [approveEffects]
  · unfold approveUploadRaced
    rw [h]
    simp [approveEffects, bumpStats]

/-- Witness for C1's amended claim at the one-pending-submission state. -/
theorem approve_guard_only_at_fetch_witness :
    (∃ row, fetchPendingRow dbOnePending 42 = some row ∧ row.status = .pending) ∧
    (approveUploadRaced dbOnePending 42).materials.length =
      dbOnePending.materials.length + 2 ∧
    (approveUploadRaced dbOnePending 42).userStats 5 =
      some ((dbOnePending.userStats 5).getD 0 + 2) := by
  have h := approve_guard_only_at_fetch dbOnePending 42
    { uploadId := 42, submitterId := 5, faculty := "f", major := "m"
      entryYear := "1400", courseName := "c", professorName := none
      userChatId := 5, userMessageId := 10, status := .pending } (by decide)
  exact ⟨⟨_, by decide, h.1⟩, h.2.1, h.2.2⟩

/-- C2: an approve or reject call on an id whose submission is already
resolved, or on an unknown id, reports "already resolved" and performs no
action: both handlers return the moderation state (submission statuses,
materials catalog, stats counters) completely unchanged. -/
theorem resolved_or_unknown_noop (db : ModState) (uploadId : Nat)
    (h : ∀ r ∈ db.pendingUploads, r.uploadId = uploadId → r.status ≠ .pending) :
    approveUpload db uploadId = (db, .alreadyResolved) ∧
    rejectUpload db uploadId = (db, .alreadyResolved) := by
  have hf : fetchPendingRow db uploadId = none := by
    unfold fetchPendingRow
    rw [List.find?_eq_none]
    intro r hr
    simp only [Bool.and_eq_true, beq_iff_eq, not_and]
    exact h r hr
  constructor
  · unfold approveUpload
    rw [hf]
  · unfold rejectUpload
    rw [hf]

/-- Witness for C2 at a state whose only submission is already approved. -/
theorem resolved_or_unknown_noop_witness :
    (∀ r ∈ dbOneApproved.pendingUploads, r.uploadId = 42 → r.status ≠ .pending) ∧
    approveUpload dbOneApproved 42 = (dbOneApproved, .alreadyResolved) ∧
    rejectUpload dbOneApproved 42 = (dbOneApproved, .alreadyResolved) := by
  have h := resolved_or_unknown_noop dbOneApproved 42 (by decide)
  exact ⟨by decide, h.1, h.2⟩

/-! ## Dispatcher helper lemmas -/

theorem saveUserBasic_userState (s : BotState) (uid : UserId) (a : Option String)
    (b : String) : (saveUserBasic s uid a b).userState = s.userState := rfl

theorem saveUserBasic_tmp (s : BotState) (uid : UserId) (a : Option String)
    (b : String) : (saveUserBasic s uid a b).tmp = s.tmp := rfl

theorem saveUserBasic_searchState (s : BotState) (uid : UserId) (a : Option String)
    (b : String) : (saveUserBasic s uid a b).searchState = s.searchState := rfl

theorem saveUserBasic_adminBroadcastMode (s : BotState) (uid : UserId)
    (a : Option String) (b : String) :
    (saveUserBasic s uid a b).adminBroadcastMode = s.adminBroadcastMode := rfl

theorem saveUserBasic_adminDeleteMode (s : BotState) (uid : UserId)
    (a : Option String) (b : String) :
    (saveUserBasic s uid a b).adminDeleteMode = s.adminDeleteMode := rfl

theorem saveUserBasic_userBroadcastMode (s : BotState) (uid : UserId)
    (a : Option String) (b : String) :
    (saveUserBasic s uid a b).userBroadcastMode = s.userBroadcastMode := rfl

theorem saveUserBasic_chatUsed (s : BotState) (uid : UserId) (a : Option String)
    (b : String) : (saveUserBasic s uid a b).chatUsed = s.chatUsed := rfl

theorem saveUserBasic_chat (s : BotState) (uid : UserId) (a : Option String)
    (b : String) : (saveUserBasic s uid a b).chat = s.chat := rfl

theorem saveUserBasic_chatMessages (s : BotState) (uid : UserId) (a : Option String)
    (b : String) : (saveUserBasic s uid a b).chatMessages = s.chatMessages := rfl

theorem saveUserBasic_pendingUploads (s : BotState) (uid : UserId) (a : Option String)
    (b : String) :
    (saveUserBasic s uid a b).mod.pendingUploads = s.mod.pendingUploads := rfl

theorem saveUserBasic_nextUploadId (s : BotState) (uid : UserId) (a : Option String)
    (b : String) :
    (saveUserBasic s uid a b).mod.nextUploadId = s.mod.nextUploadId := rfl

theorem userConfigured_saveUserBasic (s : BotState) (uid : UserId) (a : Option String)
    (b : String) :
    userConfigured (saveUserBasic s uid a b) uid = userConfigured s uid := by
  unfold userConfigured saveUserBasic
  cases hu : s.users uid <;> simp [hu, truthy]

/-! ## Claims C3, C8, C9, C10 -/

/-- C3 counterexample: the admin, paired with user 7, has delete-by-id mode
armed; their freeform text message is consumed by the admin-delete branch
(re-prompt, since the text is not numeric) instead of being relayed, and
nothing is appended to the chat log.  The claim that relay has the highest
dispatch precedence is false. -/
theorem relay_precedence_cex :
    botAdminDelPaired.chat.activeChat adminId = some 7 ∧
    msgHello.text = some "hello" ∧
    (onMessage botAdminDelPaired adminId msgHello).2 = .adminDeletePrompt ∧
    (onMessage botAdminDelPaired adminId msgHello).1.chatMessages = [] :=
  ⟨by decide, by decide, by decide, by decide⟩

/-- C3 amended: the relay for a paired sender takes precedence over search
state and wizard state — with no one-shot admin mode (delete-by-id, admin
broadcast) and no user broadcast draft armed, a non-empty text message
from a paired sender is relayed to the partner and appended to the chat
log regardless of the sender's search or wizard state; but the one-shot
modes, checked earlier in the dispatch, consume the message when armed. -/
theorem relay_beats_search_and_wizard (s0 : BotState) (uid partner : UserId)
    (m : Msg) (t : String)
    (h1 : (isAdmin uid && s0.adminDeleteMode uid) = false)
    (h2 : (s0.adminBroadcastMode uid && isAdmin uid) = false)
    (h3 : s0.userBroadcastMode uid = false)
    (hp : s0.chat.activeChat uid = some partner)
    (ht : m.text = some t) (hne : t ≠ "") :
    (onMessage s0 uid m).2 = .relayed partner t ∧
    (onMessage s0 uid m).1.chatMessages =
      s0.chatMessages ++ [⟨s0.chat.activeSession uid, uid, t⟩] := by
  unfold onMessage
  simp only [saveUserBasic_adminDeleteMode, saveUserBasic_adminBroadcastMode,
    saveUserBasic_userBroadcastMode, saveUserBasic_chat, saveUserBasic_chatMessages,
    h1, h2, h3, hp, ht, Bool.false_eq_true, if_false, if_neg hne]
  refine ⟨?_, ?_⟩ <;> trivial

/-- Witness for C3's amended claim: user 3 is paired with 4 while search
state and an upload wizard step are simultaneously armed; the text is
still relayed and logged. -/
theorem relay_beats_search_and_wizard_witness :
    botRelayEx.searchState 3 = true ∧
    botRelayEx.userState 3 = some .awaitCourse ∧
    (onMessage botRelayEx 3 msgHello).2 = .relayed 4 "hello" ∧
    (onMessage botRelayEx 3 msgHello).1.chatMessages =
      botRelayEx.chatMessages ++ [⟨botRelayEx.chat.activeSession 3, 3, "hello"⟩] := by
  have h := relay_beats_search_and_wizard botRelayEx 3 4 msgHello "hello"
    (by decide) (by decide) (by decide) (by decide) (by decide) (by decide)
  exact ⟨by decide, by decide, h.1, h.2⟩

/-- C8: for a user whose classification triple is not fully set, each of the
four feature entry buttons (search, upload, user broadcast, chat) replies
with the onboarding prompt and arms nothing: wizard state, search state,
broadcast mode, chat-used flag and the whole matchmaking state are
unchanged. -/
theorem unconfigured_entry_points_refused (s0 : BotState) (uid : UserId)
    (uname : Option String) (fname : String) (data : String)
    (hc : userConfigured s0 uid = false)
    (hd : data = "menu_search" ∨ data = "menu_upload" ∨ data = "menu_user_bc" ∨
      data = "menu_chat") :
    (onButton s0 uid uname fname data).2 = .onboardRedirect ∧
    (onButton s0 uid uname fname data).1.userState = s0.userState ∧
    (onButton s0 uid uname fname data).1.searchState = s0.searchState ∧
    (onButton s0 uid uname fname data).1.userBroadcastMode = s0.userBroadcastMode ∧
    (onButton s0 uid uname fname data).1.chatUsed = s0.chatUsed ∧
    (onButton s0 uid uname fname data).1.chat = s0.chat := by
  have hc2 : userConfigured (saveUserBasic s0 uid uname fname) uid = false := by
    rw [userConfigured_saveUserBasic]
    exact hc
  rcases hd with rfl | rfl | rfl | rfl <;>
    simp [onButton, hc2, saveUserBasic_userState, saveUserBasic_searchState,
      saveUserBasic_userBroadcastMode, saveUserBasic_chatUsed, saveUserBasic_chat]

/-- Witness for C8: an unknown (hence unconfigured) user pressing the chat
entry is redirected to onboarding with no state armed. -/
theorem unconfigured_entry_points_refused_witness :
    userConfigured baseBot 3 = false ∧
    (onButton baseBot 3 none "a" "menu_chat").2 = .onboardRedirect ∧
    (onButton baseBot 3 none "a" "menu_chat").1.userState = baseBot.userState := by
  have h := unconfigured_entry_points_refused baseBot 3 none "a" "menu_chat"
    (by decide) (Or.inr (Or.inr (Or.inr rfl)))
  exact ⟨by decide, h.1, h.2.1⟩

/-- C9 counterexample: at the attribution step, the text " x" (a space then
"x") is neither empty nor a sentinel, yet the stored attribution is the
trimmed "x", not the text as given — the claim that any non-sentinel text
is stored as given is false. -/
theorem attribution_stored_trimmed_cex :
    msgSpaceX.text = some " x" ∧ " x" ≠ "" ∧ " x" ≠ "-" ∧ " x" ≠ "—" ∧
    (onMessage botAwaitProf 3 msgSpaceX).1.mod.pendingUploads.map
      (fun r => r.professorName) = [some "x"] ∧
    some "x" ≠ some " x" :=
  ⟨by decide, by decide, by decide, by decide, by decide, by decide⟩

/-- C9 amended: completing the attribution step stores the submission with
`professor_name` absent when the stripped text is the sentinel "-" (or the
em dash "—"), and otherwise stores the stripped text (surrounding
whitespace removed), clearing the wizard state and scratch record. -/
theorem attribution_sentinel_normalized (s0 : BotState) (uid : UserId) (m : Msg)
    (t : String) (d : TmpRec) (f mj y c : String)
    (h1 : (isAdmin uid && s0.adminDeleteMode uid) = false)
    (h2 : (s0.adminBroadcastMode uid && isAdmin uid) = false)
    (h3 : s0.userBroadcastMode uid = false)
    (h4 : s0.chat.activeChat uid = none)
    (h5 : s0.searchState uid = false)
    (h6 : s0.userState uid = some .awaitProf)
    (h7 : s0.tmp uid = some d)
    (hd1 : d.faculty = some f) (hd2 : d.major = some mj)
    (hd3 : d.entryYear = some y) (hd4 : d.courseName = some c)
    (ht : m.text = some t) (hne : t ≠ "") :
    (onMessage s0 uid m).2 = .uploadSubmitted s0.mod.nextUploadId ∧
    (onMessage s0 uid m).1.mod.pendingUploads =
      s0.mod.pendingUploads ++
        [{ uploadId := s0.mod.nextUploadId, submitterId := uid, faculty := f
           major := mj, entryYear := y, courseName := c
           professorName :=
             if pyStrip t = "-" ∨ pyStrip t = "—" then none else some (pyStrip t)
           userChatId := d.userChatId, userMessageId := d.userMessageId
           status := .pending }] ∧
    (onMessage s0 uid m).1.userState uid = none ∧
    (onMessage s0 uid m).1.tmp uid = none := by
  unfold onMessage
  simp only [saveUserBasic_adminDeleteMode, saveUserBasic_adminBroadcastMode,
    saveUserBasic_userBroadcastMode, saveUserBasic_chat, saveUserBasic_searchState,
    saveUserBasic_userState, saveUserBasic_tmp, saveUserBasic_pendingUploads,
    saveUserBasic_nextUploadId, h1, h2, h3, h4, h5, h6, h7, hd1, hd2, hd3, hd4, ht,
    Bool.false_eq_true, if_false, if_neg hne]
  refine ⟨?_, ?_, ?_, ?_⟩ <;> simp

/-- Witness for C9's amended claim: the sentinel "-" is normalized to an
absent attribution in the stored submission. -/
theorem attribution_sentinel_normalized_witness :
    msgDash.text = some "-" ∧
    (onMessage botAwaitProf 3 msgDash).2 = .uploadSubmitted 1 ∧
    (onMessage botAwaitProf 3 msgDash).1.mod.pendingUploads.map
      (fun r => r.professorName) = [none] := by
  have h := attribution_sentinel_normalized botAwaitProf 3 msgDash "-"
    { userChatId := 3, userMessageId := 10, faculty := some "f", major := some "m"
      entryYear := some "y", courseName := some "c" } "f" "m" "y" "c"
    (by decide) (by decide) (by decide) (by decide) (by decide) (by decide)
    (by decide) (by decide) (by decide) (by decide) (by decide) (by decide)
    (by decide)
  refine ⟨by decide, h.1, ?_⟩
  rw [h.2.1]
  decide

/-- C10 counterexample: user 3 is paired with 4 but has a broadcast draft
armed with one approved upload; their non-text message is consumed as the
broadcast payload, and the partner receives no fixed notice — the claim
quantified over every non-text message from a paired user is false. -/
theorem nontext_relay_claim_cex :
    botBcPaired.chat.activeChat 3 = some 4 ∧
    msgPhoto.text = none ∧
    (onMessage botBcPaired 3 msgPhoto).2 = .userBroadcastSubmitted 1 ∧
    (onMessage botBcPaired 3 msgPhoto).2 ≠ .nonTextNotice 4 :=
  ⟨by decide, by decide, by decide, by decide⟩

/-- C10 amended: when no earlier-dispatched one-shot mode (admin delete,
admin broadcast, user broadcast draft) is armed, a non-text message from a
paired sender is not relayed and not logged: the partner receives the fixed
only-text notice, the chat log is unchanged, and the pairing state is
untouched. -/
theorem nontext_paired_notice (s0 : BotState) (uid partner : UserId) (m : Msg)
    (h1 : (isAdmin uid && s0.adminDeleteMode uid) = false)
    (h2 : (s0.adminBroadcastMode uid && isAdmin uid) = false)
    (h3 : s0.userBroadcastMode uid = false)
    (hp : s0.chat.activeChat uid = some partner)
    (ht : m.text = none) :
    (onMessage s0 uid m).2 = .nonTextNotice partner ∧
    (onMessage s0 uid m).1.chatMessages = s0.chatMessages ∧
    (onMessage s0 uid m).1.chat = s0.chat := by
  unfold onMessage
  simp only [saveUserBasic_adminDeleteMode, saveUserBasic_adminBroadcastMode,
    saveUserBasic_userBroadcastMode, saveUserBasic_chat, saveUserBasic_chatMessages,
    h1, h2, h3, hp, ht, Bool.false_eq_true, if_false]
  refine ⟨?_, ?_, ?_⟩ <;> trivial

/-- Witness for C10's amended claim: a photo from paired user 3 yields the
only-text notice to partner 4 and leaves log and pairing unchanged. -/
theorem nontext_paired_notice_witness :
    botRelayEx.chat.activeChat 3 = some 4 ∧ msgPhoto.text = none ∧
    (onMessage botRelayEx 3 msgPhoto).2 = .nonTextNotice 4 ∧
    (onMessage botRelayEx 3 msgPhoto).1.chatMessages = botRelayEx.chatMessages ∧
    (onMessage botRelayEx 3 msgPhoto).1.chat = botRelayEx.chat := by
  have h := nontext_paired_notice botRelayEx 3 4 msgPhoto
    (by decide) (by decide) (by decide) (by decide) (by decide)
  exact ⟨by decide, by decide, h.1, h.2.1, h.2.2⟩

end SbmuBot
